import Mathlib

/-!
Verification development for the telemetry ingestion gateway of
`Nezent/eteleverse-microservice` (telemetry-service).

The embedding translates, from the Go sources:
  * `internal/logger/logger.go`   — `LogEntry`, `LogFromService`, `LogBatch`, `ParseLogEntry`
  * `internal/metrics/metrics.go` — `Metrics`, `RecordCustomCounter`, `RecordCustomGauge`,
    `RecordCustomHistogram`, `MetricEntry`, `RecordMetric`
  * `internal/handler/handler.go` — `LogHandler`, `LogBatchHandler`, `MetricsHandler`

Modelling decisions, stated once here:
  * Go `map[string]T` is modelled as an association list with unique keys.
    `m[k] = v` updates in place or appends at the end; `for k, v := range m`
    iterates in list order.  Go randomizes map iteration order; the model
    fixes one admissible order (insertion order).  No theorem below depends
    on which admissible order is chosen, except where a claim asserts a
    *deterministic sorted* order, which the code cannot provide under any
    iteration order that differs from sorted order.
  * `float64` metric values are modelled as `Int`: every value any claim
    exercises is integral and no claim involves float rounding.
  * External collaborators are modelled at their documented boundary only:
    - zap: `Logger.Fatal` writes the entry then calls `os.Exit(1)`;
      `Logger.Panic` writes then panics.  Other levels write and return.
    - prometheus/promauto: registering a vector whose label names contain a
      duplicate panics (`MustRegister` on an invalid `Desc`);
      `WithLabelValues` panics when the number of values differs from the
      vector's label-name count; `Counter.Add` panics on a negative value.
    Panics are modelled as an explicit outcome carried next to the state
    reached at the panic point; `os.Exit` likewise.
  * `time.Time` is modelled as `Nat`, with `0` the zero instant
    (`IsZero`).  JSON decoding of a request body is modelled as an
    `Option`-valued input: `none` for a body that does not decode, `some`
    for the decoded struct (absent fields holding Go zero values, which is
    exactly what `encoding/json` produces).
-/

namespace Telemetry

/-- Association-list lookup, modelling Go map indexing `m[k]` (the `Option`
is `none` when the key is absent; Go then yields the zero value). -/
def assocGet {K A : Type} [DecidableEq K] : List (K × A) → K → Option A
  | [], _ => none
  | (k1, a) :: rest, k => if k1 = k then some a else assocGet rest k

/-- Association-list insert/update, modelling Go map assignment `m[k] = v`:
replace in place when the key is present, append otherwise. -/
def assocSet {K A : Type} [DecidableEq K] : List (K × A) → K → A → List (K × A)
  | [], k, a => [(k, a)]
  | (k1, a1) :: rest, k, a =>
      if k1 = k then (k, a) :: rest else (k1, a1) :: assocSet rest k a

/-- Association-list removal, modelling Go `delete(m, k)`. -/
def assocDelete {K A : Type} [DecidableEq K] : List (K × A) → K → List (K × A)
  | [], _ => []
  | (k1, a1) :: rest, k =>
      if k1 = k then assocDelete rest k else (k1, a1) :: assocDelete rest k

/-- Keys of an association list, in iteration order (`for k := range m`). -/
def keysOf {A : Type} : List (String × A) → List String
  | [] => []
  | (k, _) :: rest => k :: keysOf rest

/-- Values of an association list, in iteration order (`for _, v := range m`). -/
def valsOf {A : Type} : List (String × A) → List A
  | [] => []
  | (_, a) :: rest => a :: valsOf rest

/-- Membership test on a key list. -/
def keyMem : List String → String → Bool
  | [], _ => false
  | k1 :: rest, k => if k1 = k then true else keyMem rest k

/-- Number of occurrences of a key in a key list. -/
def countKey : List String → String → Nat
  | [], _ => 0
  | k1 :: rest, k => (if k1 = k then 1 else 0) + countKey rest k

/-- Duplicate test on a key list, as prometheus `NewDesc` performs on label
names before registration. -/
def hasDupKeys : List String → Bool
  | [] => false
  | k :: rest => keyMem rest k || hasDupKeys rest

/-- Label maps (`map[string]string` in the source). -/
abbrev Labels := List (String × String)

/-- One counter family: the label-name schema fixed when the
`prometheus.CounterVec` is created, and the per-label-tuple running sums
(`WithLabelValues(...).Add`). -/
structure CounterFamily where
  labelNames : List String
  series : List (List String × Int)
  deriving DecidableEq

/-- One gauge family (`prometheus.GaugeVec`): last value per label-tuple. -/
structure GaugeFamily where
  labelNames : List String
  series : List (List String × Int)
  deriving DecidableEq

/-- One histogram family (`prometheus.HistogramVec`): observations per
label-tuple. -/
structure HistogramFamily where
  labelNames : List String
  series : List (List String × List Int)
  deriving DecidableEq

/-- The custom-metric part of `metrics.Metrics`: the three
`map[string]*prometheus.XVec` tables guarded by `m.mu`. -/
structure Metrics where
  customCounters : List (String × CounterFamily)
  customGauges : List (String × GaugeFamily)
  customHistograms : List (String × HistogramFamily)
  deriving DecidableEq

/-- Registry state right after `InitMetrics`: all three tables empty. -/
def emptyMetrics : Metrics := { customCounters := [], customGauges := [], customHistograms := [] }

/-- Panics raised inside the prometheus client library at the boundary of
the registry code (the registry itself raises none of its own). -/
inductive RegPanic where
  /-- promauto `MustRegister` panic: the new vector's label names contain a
  duplicate, so its `Desc` is invalid. -/
  | duplicateLabelNames
  /-- `WithLabelValues` panic: the supplied value count differs from the
  vector's label-name count. -/
  | cardinalityMismatch
  /-- `Counter.Add` panic: counters cannot decrease, negative increment. -/
  | negativeCounter
  deriving DecidableEq

/-- Label-name list built at family creation in `RecordCustomCounter` and
its gauge/histogram twins: `labelNames := ["service_name"]` followed by
the keys of the supplied label map in iteration order. -/
def mkLabelNames (labels : Labels) : List String :=
  "service_name" :: keysOf labels

/-- Label-value list built on every recording call: `labels["service_name"]`
(the zero value `""` when absent), then `delete(labels, "service_name")`,
then the remaining values in iteration order. -/
def mkLabelValues (labels : Labels) : List String :=
  (assocGet labels ("service_name")).getD "" :: valsOf (assocDelete labels ("service_name"))

/-- Running-sum update for one counter series:
`WithLabelValues(vals...).Add(v)` adds to the existing child or starts a
new child at `v`. -/
def seriesAdd : List (List String × Int) → List String → Int → List (List String × Int)
  | [], key, v => [(key, v)]
  | (key1, x) :: rest, key, v =>
      if key1 = key then (key1, x + v) :: rest else (key1, x) :: seriesAdd rest key v

/-- Last-value update for one gauge series: `WithLabelValues(vals...).Set(v)`. -/
def seriesSet : List (List String × Int) → List String → Int → List (List String × Int)
  | [], key, v => [(key, v)]
  | (key1, x) :: rest, key, v =>
      if key1 = key then (key1, v) :: rest else (key1, x) :: seriesSet rest key v

/-- Observation insert for one histogram series:
`WithLabelValues(vals...).Observe(v)`. -/
def seriesObserve : List (List String × List Int) → List String → Int →
    List (List String × List Int)
  | [], key, v => [(key, [v])]
  | (key1, xs) :: rest, key, v =>
      if key1 = key then (key1, xs ++ [v]) :: rest else (key1, xs) :: seriesObserve rest key v

/-- Recording phase of `RecordCustomCounter` once the family is in hand:
`counter.WithLabelValues(labelValues...).Add(value)`.  `WithLabelValues`
panics on a cardinality mismatch; `Add` panics on a negative value;
otherwise the sum for the label-tuple is updated. -/
def counterAddPhase (m : Metrics) (name : String) (counter : CounterFamily)
    (labels : Labels) (value : Int) : Metrics × Option RegPanic :=
  let labelValues := mkLabelValues labels
  if labelValues.length = counter.labelNames.length then
    if value < 0 then (m, some RegPanic.negativeCounter)
    else
      let fam : CounterFamily :=
        { labelNames := counter.labelNames,
          series := seriesAdd counter.series labelValues value }
      ({ m with customCounters := assocSet m.customCounters name fam }, none)
  else (m, some RegPanic.cardinalityMismatch)

/-- Embedding of `metrics.go` `RecordCustomCounter` (lines 861-891).  The
whole body runs under `m.mu.Lock()`, so it is one atomic step.  On first
sight of `name` the label-name schema is captured (`"service_name"`
prepended to the map keys in iteration order) and the vector is created;
creation panics in promauto when the names contain a duplicate, before the
family is stored.  The second component is `some p` when the prometheus
library panics, with the first component the state at the panic point. -/
def RecordCustomCounter (m : Metrics) (name : String) (labels : Labels) (value : Int) :
    Metrics × Option RegPanic :=
  match assocGet m.customCounters name with
  | some counter => counterAddPhase m name counter labels value
  | none =>
      let labelNames := mkLabelNames labels
      if hasDupKeys labelNames then (m, some RegPanic.duplicateLabelNames)
      else
        let counter : CounterFamily := { labelNames := labelNames, series := [] }
        counterAddPhase
          { m with customCounters := assocSet m.customCounters name counter }
          name counter labels value

/-- Recording phase of `RecordCustomGauge`:
`gauge.WithLabelValues(labelValues...).Set(value)` (no sign restriction). -/
def gaugeSetPhase (m : Metrics) (name : String) (gauge : GaugeFamily)
    (labels : Labels) (value : Int) : Metrics × Option RegPanic :=
  let labelValues := mkLabelValues labels
  if labelValues.length = gauge.labelNames.length then
    let fam : GaugeFamily :=
      { labelNames := gauge.labelNames,
        series := seriesSet gauge.series labelValues value }
    ({ m with customGauges := assocSet m.customGauges name fam }, none)
  else (m, some RegPanic.cardinalityMismatch)

/-- Embedding of `metrics.go` `RecordCustomGauge` (lines 894-924), the
structural twin of `RecordCustomCounter` over the gauge table. -/
def RecordCustomGauge (m : Metrics) (name : String) (labels : Labels) (value : Int) :
    Metrics × Option RegPanic :=
  match assocGet m.customGauges name with
  | some gauge => gaugeSetPhase m name gauge labels value
  | none =>
      let labelNames := mkLabelNames labels
      if hasDupKeys labelNames then (m, some RegPanic.duplicateLabelNames)
      else
        let gauge : GaugeFamily := { labelNames := labelNames, series := [] }
        gaugeSetPhase
          { m with customGauges := assocSet m.customGauges name gauge }
          name gauge labels value

/-- Recording phase of `RecordCustomHistogram`:
`histogram.WithLabelValues(labelValues...).Observe(value)`. -/
def histogramObservePhase (m : Metrics) (name : String) (histogram : HistogramFamily)
    (labels : Labels) (value : Int) : Metrics × Option RegPanic :=
  let labelValues := mkLabelValues labels
  if labelValues.length = histogram.labelNames.length then
    let fam : HistogramFamily :=
      { labelNames := histogram.labelNames,
        series := seriesObserve histogram.series labelValues value }
    ({ m with customHistograms := assocSet m.customHistograms name fam }, none)
  else (m, some RegPanic.cardinalityMismatch)

/-- Embedding of `metrics.go` `RecordCustomHistogram` (lines 927-958). -/
def RecordCustomHistogram (m : Metrics) (name : String) (labels : Labels) (value : Int) :
    Metrics × Option RegPanic :=
  match assocGet m.customHistograms name with
  | some histogram => histogramObservePhase m name histogram labels value
  | none =>
      let labelNames := mkLabelNames labels
      if hasDupKeys labelNames then (m, some RegPanic.duplicateLabelNames)
      else
        let histogram : HistogramFamily := { labelNames := labelNames, series := [] }
        histogramObservePhase
          { m with customHistograms := assocSet m.customHistograms name histogram }
          name histogram labels value

/-- Embedding of `metrics.go` `MetricEntry`. -/
structure MetricEntry where
  serviceName : String
  metricName : String
  metricType : String
  value : Int
  labels : Labels
  deriving DecidableEq

/-- Embedding of `metrics.go` `RecordMetric` (lines 970-986): fold
`service_name` into the label map (`entry.Labels["service_name"] =
entry.ServiceName`, after a nil-map check the association list absorbs),
then dispatch on `metric_type`.  The Go `switch` has no `default` case, so
an unknown type falls through and nothing is recorded. -/
def RecordMetric (m : Metrics) (entry : MetricEntry) : Metrics × Option RegPanic :=
  let labels := assocSet entry.labels ("service_name") entry.serviceName
  if entry.metricType = "counter" then RecordCustomCounter m entry.metricName labels entry.value
  else if entry.metricType = "gauge" then RecordCustomGauge m entry.metricName labels entry.value
  else if entry.metricType = "histogram" then
    RecordCustomHistogram m entry.metricName labels entry.value
  else (m, none)

/-- Snapshot read of one counter series, as the `GET /metrics` exposition
endpoint would report it: the current running sum of family `name` at
label-value tuple `key` (`none` when the family or series does not exist).
Reading never mutates the registry. -/
def counterValue (m : Metrics) (name : String) (key : List String) : Option Int :=
  match assocGet m.customCounters name with
  | none => none
  | some counter => assocGet counter.series key

/-- Embedding of `logger.go` `LogEntry`.  `fields` models
`map[string]interface{}`; the claims never inspect field values, only the
shape, so values are kept as strings. -/
structure LogEntry where
  service_name : String
  level : String
  message : String
  timestamp : Nat
  fields : List (String × String)
  trace_id : String
  span_id : String
  deriving DecidableEq

/-- Severity a log entry is written at by the zap sink. -/
inductive SinkLevel where
  | debug
  | info
  | warn
  | error
  deriving DecidableEq

/-- Result of one `LogFromService` call.  zap `Fatal` writes the entry at
fatal severity and then calls `os.Exit(1)`; zap `Panic` writes and then
panics.  Every other level writes and returns `nil`. -/
inductive LogOutcome where
  | logged (lvl : SinkLevel)
  | exitProcess
  | panicProcess
  deriving DecidableEq

/-- Embedding of `logger.go` `LogFromService` (lines 649-688): the
`switch entry.Level` dispatch.  Unrecognized level strings fall to the
`default` branch and are written at info. -/
def LogFromService (entry : LogEntry) : LogOutcome :=
  match entry.level with
  | "debug" => LogOutcome.logged SinkLevel.debug
  | "info" => LogOutcome.logged SinkLevel.info
  | "warn" => LogOutcome.logged SinkLevel.warn
  | "warning" => LogOutcome.logged SinkLevel.warn
  | "error" => LogOutcome.logged SinkLevel.error
  | "fatal" => LogOutcome.exitProcess
  | "panic" => LogOutcome.panicProcess
  | _ => LogOutcome.logged SinkLevel.info

/-- Abnormal control flow escaping a sink write. -/
inductive LogAbort where
  | exit
  | panicked
  deriving DecidableEq

/-- Projection of a `LogFromService` outcome to the control flow seen by
the caller: `none` when the call returns (its Go `error` result is always
`nil`), `some` when the process exits or unwinds. -/
def abortOf (o : LogOutcome) : Option LogAbort :=
  match o with
  | LogOutcome.logged _ => none
  | LogOutcome.exitProcess => some LogAbort.exit
  | LogOutcome.panicProcess => some LogAbort.panicked

/-- Embedding of `logger.go` `LogBatch` (lines 691-698): sink each entry in
order; the loop is cut short only by an exit or panic escaping
`LogFromService` (its error result is always `nil`, so the wrapped-error
branch is unreachable). -/
def LogBatch : List LogEntry → Option LogAbort
  | [] => none
  | e :: rest =>
      match abortOf (LogFromService e) with
      | none => LogBatch rest
      | some a => some a

/-- Embedding of `logger.go` `ParseLogEntry` (lines 701-713).  The input is
the result of `json.Unmarshal`: `none` for a malformed body (the Go
function then returns `nil, err`), `some e` for the decoded struct with
absent fields holding zero values.  A zero timestamp (`IsZero`) is
replaced by the normalizer's current wall clock `now`. -/
def ParseLogEntry : Option LogEntry → Nat → Option LogEntry
  | none, _ => none
  | some e, now => some (if e.timestamp = 0 then { e with timestamp := now } else e)

/-- The handler-owned log counters of `metrics.go`: `LogsReceived`,
`LogsProcessed`, `LogsErrors` (each a `CounterVec` keyed by two labels)
and the `LogBatchSize` histogram's observations. -/
structure LogCounters where
  received : List ((String × String) × Nat)
  processed : List ((String × String) × Nat)
  errors : List ((String × String) × Nat)
  batchSizes : List Nat
  deriving DecidableEq

/-- Counter state right after `InitMetrics`. -/
def emptyLogCounters : LogCounters :=
  { received := [], processed := [], errors := [], batchSizes := [] }

/-- One `WithLabelValues(a, b).Inc()` on a two-label counter vector. -/
def bump : List ((String × String) × Nat) → String × String →
    List ((String × String) × Nat)
  | [], k => [(k, 1)]
  | (k1, n) :: rest, k =>
      if k1 = k then (k1, n + 1) :: rest else (k1, n) :: bump rest k

/-- Total of a counter vector over all label tuples. -/
def totalCount : List ((String × String) × Nat) → Nat
  | [] => 0
  | (_, n) :: rest => n + totalCount rest

/-- Result of `json.Decoder.Decode` on the batch body, modelled over a list
of elements each of which decodes (`some`) or not (`none`): decoding the
array fails at the first element that does not decode, and the error
identifies that position (the decoder reports the offset of the failure). -/
def decodeBatch : List (Option LogEntry) → Except Nat (List LogEntry)
  | [] => Except.ok []
  | none :: _ => Except.error 0
  | some e :: rest =>
      match decodeBatch rest with
      | Except.ok es => Except.ok (e :: es)
      | Except.error i => Except.error (i + 1)

/-- Outcome of one `LogBatchHandler` request. -/
inductive BatchResult where
  /-- 200 response with `count` of entries. -/
  | success (count : Nat)
  /-- 400 response: the body failed to decode at element `i`. -/
  | badRequest (i : Nat)
  /-- The process was terminated by zap `Fatal` while sinking an entry. -/
  | exitProcess
  /-- A zap `Panic` unwound the handler; no JSON response was written. -/
  | panicProcess
  deriving DecidableEq

/-- Counting loop at the end of `LogBatchHandler`: one `LogsReceived` and
one `LogsProcessed` increment per entry, keyed by (service_name, level). -/
def countEntries (c : LogCounters) : List LogEntry → LogCounters
  | [] => c
  | e :: rest =>
      countEntries
        { c with
          received := bump c.received (e.service_name, e.level),
          processed := bump c.processed (e.service_name, e.level) }
        rest

/-- Embedding of `handler.go` `LogBatchHandler` (lines 86-124): decode the
whole array (any malformed element fails the decode and yields a 400 with
the counters untouched); observe the batch size; run `LogBatch`; then
increment received/processed per entry and respond with the count.  The
`LogBatch` error branch is unreachable, but an entry whose level is fatal
or panic aborts inside `LogBatch` before any counter loop runs. -/
def LogBatchHandler (c : LogCounters) (body : List (Option LogEntry)) :
    LogCounters × BatchResult :=
  match decodeBatch body with
  | Except.error i => (c, BatchResult.badRequest i)
  | Except.ok entries =>
      let c1 := { c with batchSizes := c.batchSizes ++ [entries.length] }
      match LogBatch entries with
      | some LogAbort.exit => (c1, BatchResult.exitProcess)
      | some LogAbort.panicked => (c1, BatchResult.panicProcess)
      | none => (countEntries c1 entries, BatchResult.success entries.length)

/-- Outcome of one `LogHandler` request. -/
inductive SingleLogResult where
  /-- 200 success envelope. -/
  | ok
  /-- The 400 error envelope was written, and then the statement
  `h.metrics.LogsErrors.WithLabelValues(entry.ServiceName, ...)` read field
  `ServiceName` of the nil pointer returned by `ParseLogEntry`, panicking. -/
  | nilDeref
  /-- The process was terminated by zap `Fatal`. -/
  | exitProcess
  /-- A zap `Panic` unwound the handler. -/
  | panicProcess
  deriving DecidableEq

/-- Embedding of `handler.go` `LogHandler` (lines 38-83).  On a parse
failure `ParseLogEntry` returns a nil entry pointer together with the
error, and the error branch dereferences that nil pointer to label the
`LogsErrors` increment, so the increment never lands.  On success,
`LogsReceived` is incremented, the entry is sinked, and `LogsProcessed` is
incremented only when the sink write returns. -/
def LogHandler (c : LogCounters) (body : Option LogEntry) (now : Nat) :
    LogCounters × SingleLogResult :=
  match ParseLogEntry body now with
  | none => (c, SingleLogResult.nilDeref)
  | some entry =>
      let c1 := { c with received := bump c.received (entry.service_name, entry.level) }
      match abortOf (LogFromService entry) with
      | some LogAbort.exit => (c1, SingleLogResult.exitProcess)
      | some LogAbort.panicked => (c1, SingleLogResult.panicProcess)
      | none =>
          ({ c1 with processed := bump c1.processed (entry.service_name, entry.level) },
           SingleLogResult.ok)

/-- JSON envelope written by `respondSuccess` / `respondError`. -/
structure HTTPReply where
  status : Nat
  success : Bool
  deriving DecidableEq

/-- Outcome of one `MetricsHandler` request: either a JSON envelope was
written, or a panic from the metrics library unwound the handler and no
response was produced. -/
inductive MetricsReqResult where
  | reply (r : HTTPReply)
  | panicked (p : RegPanic)
  deriving DecidableEq

/-- Embedding of `handler.go` `MetricsHandler` (lines 127-153): a body that
fails to decode yields a 400 error envelope; otherwise `RecordMetric` runs
and the handler answers 200 success — there is no error path between the
two, so a panic inside the metrics library is the only way not to reach
the success response, and it escapes the handler. -/
def MetricsHandler (m : Metrics) (body : Option MetricEntry) :
    Metrics × MetricsReqResult :=
  match body with
  | none => (m, MetricsReqResult.reply { status := 400, success := false })
  | some entry =>
      match RecordMetric m entry with
      | (m1, none) => (m1, MetricsReqResult.reply { status := 200, success := true })
      | (m1, some p) => (m1, MetricsReqResult.panicked p)

/-! Helper lemmas about the association-list map model. -/

/-- After a Go map assignment the key is present. -/
theorem keyMem_keysOf_assocSet {A : Type} (l : List (String × A)) (k : String) (v : A) :
    keyMem (keysOf (assocSet l k v)) k = true := by
  induction l with
  | nil => simp [assocSet, keysOf, keyMem]
  | cons p rest ih =>
      obtain ⟨k1, a1⟩ := p
      by_cases h : k1 = k
      · subst h; simp [assocSet, keysOf, keyMem]
      · simp [assocSet, keysOf, keyMem, h, ih]

/-- Looking up the key just assigned yields the assigned value. -/
theorem assocGet_assocSet_self {A : Type} (l : List (String × A)) (k : String) (v : A) :
    assocGet (assocSet l k v) k = some v := by
  induction l with
  | nil => simp [assocSet, assocGet]
  | cons p rest ih =>
      obtain ⟨k1, a1⟩ := p
      by_cases h : k1 = k
      · subst h; simp [assocSet, assocGet]
      · simp [assocSet, assocGet, h, ih]

/-- A key that is absent occurs zero times. -/
theorem countKey_eq_zero_of_not_mem (l : List String) (k : String)
    (h : keyMem l k = false) : countKey l k = 0 := by
  induction l with
  | nil => simp [countKey]
  | cons k1 rest ih =>
      by_cases hk : k1 = k
      · subst hk; simp [keyMem] at h
      · simp [keyMem, hk] at h
        simp [countKey, hk, ih h]

/-- In a duplicate-free key list, a present key occurs exactly once. -/
theorem countKey_eq_one_of_mem (l : List String) (k : String)
    (hdup : hasDupKeys l = false) (hmem : keyMem l k = true) : countKey l k = 1 := by
  induction l with
  | nil => simp [keyMem] at hmem
  | cons k1 rest ih =>
      simp only [hasDupKeys, Bool.or_eq_false_iff] at hdup
      by_cases hk : k1 = k
      · subst hk
        simp [countKey, countKey_eq_zero_of_not_mem rest k1 hdup.1]
      · simp only [keyMem, if_neg hk] at hmem
        simp [countKey, hk, ih hdup.2 hmem]

/-- Assigning a key into a map whose keys are duplicate-free leaves that
key occurring exactly once. -/
theorem countKey_keysOf_assocSet {A : Type} (l : List (String × A)) (k : String) (v : A)
    (hdup : hasDupKeys (keysOf l) = false) :
    countKey (keysOf (assocSet l k v)) k = 1 := by
  induction l with
  | nil => simp [assocSet, keysOf, countKey]
  | cons p rest ih =>
      obtain ⟨k1, a1⟩ := p
      simp only [keysOf, hasDupKeys, Bool.or_eq_false_iff] at hdup
      by_cases h : k1 = k
      · subst h
        simp [assocSet, keysOf, countKey,
          countKey_eq_zero_of_not_mem (keysOf rest) k1 hdup.1]
      · simp [assocSet, keysOf, countKey, h, ih hdup.2]

/-- Deleting an absent key changes nothing. -/
theorem assocDelete_eq_of_not_mem {A : Type} (l : List (String × A)) (k : String)
    (h : keyMem (keysOf l) k = false) : assocDelete l k = l := by
  induction l with
  | nil => simp [assocDelete]
  | cons p rest ih =>
      obtain ⟨k1, a1⟩ := p
      by_cases hk : k1 = k
      · subst hk; simp [keysOf, keyMem] at h
      · simp only [keysOf, keyMem, if_neg hk] at h
        simp [assocDelete, hk, ih h]

/-- Zero occurrences of a key means it is absent. -/
theorem keyMem_eq_false_of_countKey_zero (l : List String) (k : String)
    (h : countKey l k = 0) : keyMem l k = false := by
  induction l with
  | nil => simp [keyMem]
  | cons k1 rest ih =>
      by_cases hk : k1 = k
      · subst hk; simp [countKey] at h
      · simp only [countKey, if_neg hk, Nat.zero_add] at h
        simp [keyMem, hk, ih h]

/-- Deleting a key that occurs exactly once removes exactly one entry. -/
theorem assocDelete_length {A : Type} (l : List (String × A)) (k : String)
    (h : countKey (keysOf l) k = 1) : (assocDelete l k).length + 1 = l.length := by
  induction l with
  | nil => simp [keysOf, countKey] at h
  | cons p rest ih =>
      obtain ⟨k1, a1⟩ := p
      by_cases hk : k1 = k
      · subst hk
        simp [keysOf, countKey] at h
        have h0 : countKey (keysOf rest) k1 = 0 := by omega
        have := assocDelete_eq_of_not_mem rest k1
          (keyMem_eq_false_of_countKey_zero (keysOf rest) k1 h0)
        simp [assocDelete, this]
      · simp only [keysOf, countKey, if_neg hk, Nat.zero_add] at h
        simp only [assocDelete, if_neg hk, List.length_cons]
        have := ih h
        omega

/-- Iteration over the values visits one value per entry. -/
theorem valsOf_length {A : Type} (l : List (String × A)) : (valsOf l).length = l.length := by
  induction l with
  | nil => simp [valsOf]
  | cons p rest ih => obtain ⟨k1, a1⟩ := p; simp [valsOf, ih]

/-- Iteration over the keys visits one key per entry. -/
theorem keysOf_length {A : Type} (l : List (String × A)) : (keysOf l).length = l.length := by
  induction l with
  | nil => simp [keysOf]
  | cons p rest ih => obtain ⟨k1, a1⟩ := p; simp [keysOf, ih]

/-! Helper lemmas about the batch-log pipeline. -/

/-- A body all of whose elements decode yields the decoded list. -/
theorem decodeBatch_map_some (entries : List LogEntry) :
    decodeBatch (entries.map some) = Except.ok entries := by
  induction entries with
  | nil => simp [decodeBatch]
  | cons e rest ih => simp [decodeBatch, ih]

/-- When no entry aborts the sink, `LogBatch` runs the whole list and
returns. -/
theorem LogBatch_eq_none (entries : List LogEntry)
    (h : ∀ e ∈ entries, abortOf (LogFromService e) = none) : LogBatch entries = none := by
  induction entries with
  | nil => simp [LogBatch]
  | cons e rest ih =>
      have he := h e (List.mem_cons_self e rest)
      have hrest : ∀ x ∈ rest, abortOf (LogFromService x) = none := by
        intro x hx
        exact h x (List.mem_cons_of_mem e hx)
      simp [LogBatch, he, ih hrest]

/-- One increment raises the vector total by one. -/
theorem totalCount_bump (l : List ((String × String) × Nat)) (k : String × String) :
    totalCount (bump l k) = totalCount l + 1 := by
  induction l with
  | nil => simp [bump, totalCount]
  | cons p rest ih =>
      obtain ⟨k1, n⟩ := p
      by_cases hk : k1 = k
      · subst hk; simp [bump, totalCount]; omega
      · simp [bump, totalCount, hk, ih]; omega

/-- The counting loop raises the processed total by exactly the number of
entries. -/
theorem countEntries_processed_total (entries : List LogEntry) :
    ∀ c : LogCounters,
      totalCount (countEntries c entries).processed =
        totalCount c.processed + entries.length := by
  induction entries with
  | nil => intro c; simp [countEntries]
  | cons e rest ih =>
      intro c
      simp only [countEntries, ih, totalCount_bump, List.length_cons]
      omega

/-! Concrete inputs used by witnesses and counterexamples. -/

/-- A well-formed entry at level info. -/
def infoEntry : LogEntry :=
  { service_name := "svc", level := "info", message := "hello", timestamp := 1,
    fields := [], trace_id := "", span_id := "" }

/-- A well-formed entry whose level is fatal. -/
def fatalEntry : LogEntry :=
  { service_name := "svc", level := "fatal", message := "remote failure", timestamp := 1,
    fields := [], trace_id := "", span_id := "" }

/-- A well-formed entry whose level is panic. -/
def panicEntry : LogEntry :=
  { service_name := "svc", level := "panic", message := "remote failure", timestamp := 1,
    fields := [], trace_id := "", span_id := "" }

/-- An entry without a timestamp (the Go zero value after unmarshalling). -/
def tsZeroEntry : LogEntry :=
  { service_name := "svc", level := "info", message := "m", timestamp := 0,
    fields := [], trace_id := "", span_id := "" }

/-- An entry with an explicit nonzero timestamp. -/
def tsSetEntry : LogEntry :=
  { service_name := "svc", level := "info", message := "m", timestamp := 42,
    fields := [], trace_id := "", span_id := "" }

/-- Registry state after one direct `RecordCustomCounter` call creating
family x with label map {a: 1} (no service_name key supplied, so creation
succeeds and the schema is [service_name, a]). -/
def m1x : Metrics := (RecordCustomCounter emptyMetrics ("x") [("a", "1")] 5).1

/-- The family stored for x inside `m1x`. -/
def fam1x : CounterFamily :=
  { labelNames := ["service_name", "a"], series := [(["", "1"], 5)] }

/-! Claim theorems. -/

/-- C1 counterexample: family x already exists with label-key schema
[service_name, a] (state `m1x`); a later submission under the same name
with the different label-key set {b} is not rejected — the call returns
with no error and the family's recorded state changes (a new series is
appended).  There is no SchemaMismatch rejection. -/
theorem c1_cex :
    (RecordCustomCounter m1x ("x") [("b", "2")] 5).2 = none ∧
    (RecordCustomCounter m1x ("x") [("b", "2")] 5).1 ≠ m1x := by
  decide

/-- C1 amended: the registry performs no label-schema check at all.  On a
submission for an existing family, when the supplied label-value list has
the stored label-name count, the call succeeds even though the supplied
key set differs from the stored schema (the values are recorded
positionally); when the counts differ, the prometheus `WithLabelValues`
call panics with a cardinality mismatch, leaving the registry unchanged.
No SchemaMismatch error exists in the code. -/
theorem c1_amended_thm :
    (∀ (m : Metrics) (name : String) (labels : Labels) (value : Int) (fam : CounterFamily),
        assocGet m.customCounters name = some fam →
        mkLabelNames labels ≠ fam.labelNames →
        (mkLabelValues labels).length = fam.labelNames.length →
        ¬ value < 0 →
        (RecordCustomCounter m name labels value).2 = none) ∧
    (∀ (m : Metrics) (name : String) (labels : Labels) (value : Int) (fam : CounterFamily),
        assocGet m.customCounters name = some fam →
        (mkLabelValues labels).length ≠ fam.labelNames.length →
        RecordCustomCounter m name labels value = (m, some RegPanic.cardinalityMismatch)) := by
  constructor
  · intro m name labels value fam hget hdiff hlen hneg
    simp [RecordCustomCounter, hget, counterAddPhase, hlen, hneg]
  · intro m name labels value fam hget hlen
    simp [RecordCustomCounter, hget, counterAddPhase, hlen]

/-- C1 witness: the amended theorem at the concrete state `m1x`, with a
differing key set of matching arity (accepted) and a key set of larger
arity (cardinality-mismatch panic). -/
theorem c1_wit :
    (RecordCustomCounter m1x ("x") [("b", "2")] 5).2 = none ∧
    RecordCustomCounter m1x ("x") [("b", "2"), ("c", "3")] 5 =
      (m1x, some RegPanic.cardinalityMismatch) :=
  ⟨c1_amended_thm.1 m1x ("x") [("b", "2")] 5 fam1x (by decide) (by decide) (by decide)
      (by decide),
   c1_amended_thm.2 m1x ("x") [("b", "2"), ("c", "3")] 5 fam1x (by decide) (by decide)⟩

/-- C2 counterexample: on the deployed path, the first submission for the
unseen name m (with service_name folded into the labels) panics inside
promauto at family creation and captures nothing at all; and on a direct
registry call with labels supplied in the order [b, a], the captured
schema is [service_name, b, a] — the map iteration order with service_name
prepended — not the sorted key list [a, b, service_name], and the bucket
values ["", "2", "1"] follow the same unsorted order. -/
theorem c2_cex :
    RecordMetric emptyMetrics
        ({ serviceName := "svc", metricName := "m", metricType := "counter",
           value := 1, labels := [("a", "1")] }) =
      (emptyMetrics, some RegPanic.duplicateLabelNames) ∧
    (RecordCustomCounter emptyMetrics ("m") [("b", "2"), ("a", "1")] 1).2 = none ∧
    assocGet
        (RecordCustomCounter emptyMetrics ("m") [("b", "2"), ("a", "1")] 1).1.customCounters
        ("m") =
      some ({ labelNames := ["service_name", "b", "a"],
              series := [(["", "2", "1"], 1)] }) ∧
    ["service_name", "b", "a"] ≠ ["a", "b", "service_name"] := by
  decide

/-- C2 amended: no sorting occurs anywhere.  A first submission routed
through RecordMetric panics at family creation (the label-name list holds
service_name twice), creating no family; a direct first call whose
label-name list is duplicate-free and whose value list matches it in
length captures, as the permanent schema, service_name followed by the
label keys in map-iteration order, and creates the bucket keyed by the
values in that same unsorted order. -/
theorem c2_amended_thm :
    (∀ (m : Metrics) (entry : MetricEntry),
        entry.metricType = "counter" →
        assocGet m.customCounters entry.metricName = none →
        RecordMetric m entry = (m, some RegPanic.duplicateLabelNames)) ∧
    (∀ (m : Metrics) (name : String) (labels : Labels) (value : Int),
        assocGet m.customCounters name = none →
        hasDupKeys (mkLabelNames labels) = false →
        (mkLabelValues labels).length = (mkLabelNames labels).length →
        ¬ value < 0 →
        assocGet (RecordCustomCounter m name labels value).1.customCounters name =
          some ({ labelNames := mkLabelNames labels,
                  series := [(mkLabelValues labels, value)] })) := by
  constructor
  · intro m entry ht hget
    have hdup : hasDupKeys
        (mkLabelNames (assocSet entry.labels ("service_name") entry.serviceName)) = true := by
      simp [mkLabelNames, hasDupKeys, keyMem_keysOf_assocSet]
    simp [RecordMetric, ht, RecordCustomCounter, hget, hdup]
  · intro m name labels value hget hdup hlen hneg
    simp [RecordCustomCounter, hget, hdup, counterAddPhase, hlen, hneg,
      assocGet_assocSet_self, seriesAdd]

/-- C2 witness: the amended theorem at concrete inputs — a routed first
submission for an unseen name panics, and a direct first call with labels
{k: v} stores schema [service_name, k] with bucket ["", v]. -/
theorem c2_wit :
    RecordMetric emptyMetrics
        ({ serviceName := "svc", metricName := "m2", metricType := "counter",
           value := 2, labels := [("a", "1"), ("b", "2")] }) =
      (emptyMetrics, some RegPanic.duplicateLabelNames) ∧
    assocGet (RecordCustomCounter emptyMetrics ("g") [("k", "v")] 4).1.customCounters ("g") =
      some ({ labelNames := ["service_name", "k"], series := [(["", "v"], 4)] }) :=
  ⟨c2_amended_thm.1 emptyMetrics
      ({ serviceName := "svc", metricName := "m2", metricType := "counter",
         value := 2, labels := [("a", "1"), ("b", "2")] }) (by decide) (by decide),
   c2_amended_thm.2 emptyMetrics ("g") [("k", "v")] 4 (by decide) (by decide) (by decide)
      (by decide)⟩

/-- C3, evaluated at the failing input: a submitted entry at level fatal is
routed to the zap logger's Fatal method, which writes the entry and then
terminates the process, and a panic-level entry panics the handler; at the
handler level the fatal entry increments received and then the process
exits with no response and no processed increment.  The claim that the
gateway keeps serving after such an entry is what the code's own purpose
requires, and the code contradicts it. -/
theorem c3_thm :
    LogFromService fatalEntry = LogOutcome.exitProcess ∧
    LogFromService panicEntry = LogOutcome.panicProcess ∧
    LogHandler emptyLogCounters (some fatalEntry) 7 =
      ({ received := [(("svc", "fatal"), 1)], processed := [], errors := [],
         batchSizes := [] },
       SingleLogResult.exitProcess) := by
  decide

/-- C4: two concurrent `recordCounter("x", {a: "1"}, 5)` calls followed by
a snapshot report exactly 10 for family x at the label tuple with a = "1".
`RecordCustomCounter` holds `m.mu` for its entire body, so each call is
one atomic step and the only interleavings of two concurrent calls are the
two sequential orders; the two calls being identical, both orders are the
composition below.  Neither call panics, and the snapshot read of the
series (service_name slot empty, a = "1") is 10: no update is lost. -/
theorem c4_thm :
    (RecordCustomCounter emptyMetrics ("x") [("a", "1")] 5).2 = none ∧
    (RecordCustomCounter m1x ("x") [("a", "1")] 5).2 = none ∧
    counterValue (RecordCustomCounter m1x ("x") [("a", "1")] 5).1 ("x") ["", "1"] =
      some 10 := by
  decide

/-- C5 counterexample: a batch of one entry, every element of which is
well-formed, whose only entry has level fatal: the process exits inside
`LogBatch` after the batch-size observation, before any received/processed
increment and before any response — so a fully well-formed batch of N = 1
does not increase processed by 1 and returns no count. -/
theorem c5_cex :
    LogBatchHandler emptyLogCounters [some fatalEntry] =
      ({ received := [], processed := [], errors := [], batchSizes := [1] },
       BatchResult.exitProcess) := by
  decide

/-- C5 amended: a batch all of whose N entries are well-formed and none of
which has a fatal or panic level increases processed by exactly N and
responds with count = N; a batch body with any malformed element fails the
whole decode, leaves every log counter unchanged, and yields an error
identifying the position of the first failure.  (A well-formed batch
containing a fatal or panic entry instead aborts the process or handler
before any counter is updated — see the counterexample.) -/
theorem c5_amended_thm :
    (∀ (c : LogCounters) (entries : List LogEntry),
        (∀ e ∈ entries, abortOf (LogFromService e) = none) →
        ∃ c1 : LogCounters,
          LogBatchHandler c (entries.map some) = (c1, BatchResult.success entries.length) ∧
          totalCount c1.processed = totalCount c.processed + entries.length) ∧
    (∀ (c : LogCounters) (body : List (Option LogEntry)) (i : Nat),
        decodeBatch body = Except.error i →
        LogBatchHandler c body = (c, BatchResult.badRequest i)) := by
  constructor
  · intro c entries h
    refine ⟨countEntries ({ c with batchSizes := c.batchSizes ++ [entries.length] }) entries,
      ?_, ?_⟩
    · simp [LogBatchHandler, decodeBatch_map_some, LogBatch_eq_none entries h]
    · simp [countEntries_processed_total]
  · intro c body i h
    simp [LogBatchHandler, h]

/-- C5 witness: the amended theorem at a one-entry well-formed batch
(success, processed total 0 to 1) and at a body whose first element is
malformed (400 at index 0, counters untouched). -/
theorem c5_wit :
    (∃ c1 : LogCounters,
        LogBatchHandler emptyLogCounters ([infoEntry].map some) =
          (c1, BatchResult.success 1) ∧
        totalCount c1.processed = totalCount emptyLogCounters.processed + 1) ∧
    LogBatchHandler emptyLogCounters [none] = (emptyLogCounters, BatchResult.badRequest 0) :=
  ⟨c5_amended_thm.1 emptyLogCounters [infoEntry] (by decide),
   c5_amended_thm.2 emptyLogCounters [none] 0 (by rfl)⟩

/-- C6 counterexample: a counter submission with the negative value -3,
processed by the metrics handler, is not rejected with a
NegativeCounterValue error: the request panics inside promauto at family
creation (before any negativity check is reachable) and no error envelope
is produced — no NegativeCounterValue error exists in the code. -/
theorem c6_cex :
    MetricsHandler emptyMetrics
        (some ({ serviceName := "svc", metricName := "m", metricType := "counter",
                 value := -3, labels := [] })) =
      (emptyMetrics, MetricsReqResult.panicked RegPanic.duplicateLabelNames) := by
  decide

/-- C6 amended: the registry code performs no negative-value check of its
own.  On a direct call against an existing family with matching label
arity, a negative value makes the prometheus counter's Add panic; the
family's recorded state is unchanged, but the outcome is a library panic
aborting the request, not a NegativeCounterValue error. -/
theorem c6_amended_thm :
    ∀ (m : Metrics) (name : String) (labels : Labels) (value : Int) (fam : CounterFamily),
      assocGet m.customCounters name = some fam →
      (mkLabelValues labels).length = fam.labelNames.length →
      value < 0 →
      RecordCustomCounter m name labels value = (m, some RegPanic.negativeCounter) := by
  intro m name labels value fam hget hlen hneg
  simp [RecordCustomCounter, hget, counterAddPhase, hlen, hneg]

/-- C6 witness: the amended theorem at the concrete family `m1x` and
value -3. -/
theorem c6_wit :
    RecordCustomCounter m1x ("x") [("a", "1")] (-3) =
      (m1x, some RegPanic.negativeCounter) :=
  c6_amended_thm m1x ("x") [("a", "1")] (-3) fam1x (by decide) (by decide) (by decide)

/-- C7 counterexample: a submission with metric_type summary — not one of
counter, gauge, histogram — is answered with the 200 success envelope and
nothing is recorded, not with a 400 UnknownMetricKind error. -/
theorem c7_cex :
    MetricsHandler emptyMetrics
        (some ({ serviceName := "svc", metricName := "m", metricType := "summary",
                 value := 1, labels := [] })) =
      (emptyMetrics, MetricsReqResult.reply ({ status := 200, success := true })) := by
  decide

/-- C7 amended: the RecordMetric switch has no default branch, so every
submission whose metric_type is outside {counter, gauge, histogram} is
silently ignored: the registry is unchanged and the handler reports 200
success.  No UnknownMetricKind error exists in the code. -/
theorem c7_amended_thm :
    ∀ (m : Metrics) (entry : MetricEntry),
      entry.metricType ≠ "counter" → entry.metricType ≠ "gauge" →
      entry.metricType ≠ "histogram" →
      MetricsHandler m (some entry) = (m, MetricsReqResult.reply ({ status := 200, success := true })) := by
  intro m entry h1 h2 h3
  simp [MetricsHandler, RecordMetric, h1, h2, h3]

/-- C7 witness: the amended theorem at the unknown metric type timer. -/
theorem c7_wit :
    MetricsHandler emptyMetrics
        (some ({ serviceName := "svc", metricName := "m", metricType := "timer",
                 value := 2, labels := [("a", "1")] })) =
      (emptyMetrics, MetricsReqResult.reply ({ status := 200, success := true })) :=
  c7_amended_thm emptyMetrics
    ({ serviceName := "svc", metricName := "m", metricType := "timer",
       value := 2, labels := [("a", "1")] }) (by decide) (by decide) (by decide)

/-- C8: for every raw log submission that parses, an absent or zero-valued
timestamp is replaced by the normalizer's current wall-clock instant `now`
passed at parse time, and a nonzero supplied timestamp is kept unchanged. -/
theorem c8_thm :
    ∀ (e : LogEntry) (now : Nat),
      (e.timestamp = 0 → ParseLogEntry (some e) now = some ({ e with timestamp := now })) ∧
      (e.timestamp ≠ 0 → ParseLogEntry (some e) now = some e) := by
  intro e now
  refine ⟨fun h => ?_, fun h => ?_⟩
  · simp [ParseLogEntry, h]
  · simp [ParseLogEntry, h]

/-- C8 witness: both branches at concrete entries and clock 99. -/
theorem c8_wit :
    ParseLogEntry (some tsZeroEntry) 99 = some ({ tsZeroEntry with timestamp := 99 }) ∧
    ParseLogEntry (some tsSetEntry) 99 = some tsSetEntry :=
  ⟨(c8_thm tsZeroEntry 99).1 (by decide), (c8_thm tsSetEntry 99).2 (by decide)⟩

/-- C9: for a submission routed through RecordMetric (service_name folded
into the label map, whose keys are unique as Go map keys are), the
label-name list built at family creation contains the key service_name
exactly twice, and the label-value list assembled on a recording call has
exactly one fewer element than that label-name list — the value list never
matches the family's label-name count. -/
theorem c9_thm :
    ∀ entry : MetricEntry,
      hasDupKeys (keysOf entry.labels) = false →
      countKey (mkLabelNames (assocSet entry.labels ("service_name") entry.serviceName))
          ("service_name") = 2 ∧
      (mkLabelValues (assocSet entry.labels ("service_name") entry.serviceName)).length + 1 =
        (mkLabelNames (assocSet entry.labels ("service_name") entry.serviceName)).length := by
  intro entry hdup
  have h1 : countKey
      (keysOf (assocSet entry.labels ("service_name") entry.serviceName)) ("service_name") = 1 :=
    countKey_keysOf_assocSet entry.labels ("service_name") entry.serviceName hdup
  constructor
  · simp [mkLabelNames, countKey, h1]
  · have h2 := assocDelete_length
      (assocSet entry.labels ("service_name") entry.serviceName) ("service_name") h1
    simp only [mkLabelValues, mkLabelNames, List.length_cons, valsOf_length, keysOf_length]
    omega

/-- C9 witness: the theorem at a concrete submission with one label. -/
theorem c9_wit :
    countKey (mkLabelNames (assocSet [("a", "1")] ("service_name") ("svc")))
        ("service_name") = 2 ∧
    (mkLabelValues (assocSet [("a", "1")] ("service_name") ("svc"))).length + 1 =
      (mkLabelNames (assocSet [("a", "1")] ("service_name") ("svc"))).length :=
  c9_thm
    ({ serviceName := "svc", metricName := "m", metricType := "counter",
       value := 1, labels := [("a", "1")] }) (by decide)

/-- C10: for every malformed single-log body, `ParseLogEntry` returns a nil
entry pointer together with the error, and the LogHandler error branch
then reads ServiceName from that nil pointer to label the LogsErrors
increment — a nil-pointer dereference on every malformed body, for any
counter state and any clock; the increment never lands. -/
theorem c10_thm :
    ∀ (c : LogCounters) (now : Nat),
      ParseLogEntry none now = none ∧
      LogHandler c none now = (c, SingleLogResult.nilDeref) := by
  intro c now
  exact ⟨rfl, rfl⟩

end Telemetry
